import Mathlib

set_option maxRecDepth 100000

/-!
Shallow embedding of the ESP32-C5 ESP-NOW peer-to-peer measurement firmware
(Zartris/esp-c5-p2p): the `ESPNowManager` link/peer layer
(src/main/performance_tests.cpp, second translation unit, declared in
src/unnamed/part_003), the `TestFramework` orchestration engine
(src/main/test_framework.cpp) and the background peer-cleanup sweep
(src/unnamed/part_001).

Modelling conventions:
- machine integers are `Nat`; the `uint32_t` sequence counter wraps modulo
  `2 ^ 32` as in the source, and the `uint64_t` subtraction of the cleanup
  task is modelled modulo `2 ^ 64`;
- C `float` quantities (loss percentages) are modelled as `ℚ`;
- FreeRTOS queues are lists with the capacity 20 used at `xQueueCreate`;
  mutex acquisition is modelled as always succeeding (sequential model);
- the external ESP-IDF checksum routine `esp_crc32_le` is an opaque
  function parameter `crcFn`; the receive callback takes the value the
  receiver recomputed over the incoming bytes as an argument;
- `esp_timer_get_time()` is passed in as an explicit `now` argument;
- external radio calls (`esp_now_add_peer`, `esp_now_send`, wifi bring-up)
  either have their outcome supplied by an environment structure or are
  assumed to succeed when the source ignores their failure for the
  modelled state.
-/

/-- Error results mirroring the `esp_err_t` values the source returns:
`ESP_OK`, `ESP_ERR_INVALID_STATE`, `ESP_ERR_INVALID_SIZE` (payload too
large), `ESP_ERR_TIMEOUT` (full queue / mutex timeout), `ESP_ERR_NOT_FOUND`
(no peer available), `ESP_ERR_NO_MEM`. -/
inductive EspErr where
  | ok
  | invalidState
  | invalidSize
  | timeout
  | notFound
  | noMem
  deriving DecidableEq, Repr

/-- Message kind codes of `esp_now_msg_type_t` (src/unnamed/part_003). -/
def MSG_DISCOVERY_REQUEST : Nat := 0x01

/-- Discovery response kind code. -/
def MSG_DISCOVERY_RESPONSE : Nat := 0x02

/-- Ping kind code. -/
def MSG_PING : Nat := 0x10

/-- Pong kind code. -/
def MSG_PONG : Nat := 0x11

/-- Test data kind code. -/
def MSG_TEST_DATA : Nat := 0x32

/-- `ESP_NOW_MAX_DATA_LEN` from src/unnamed/part_003. -/
def ESP_NOW_MAX_DATA_LEN : Nat := 250

/-- Size of the `payload` array of `esp_now_message_t`:
`ESP_NOW_MAX_DATA_LEN - 16 = 234` bytes. -/
def espNowPayloadCapacity : Nat := ESP_NOW_MAX_DATA_LEN - 16

/-- `sizeof(esp_now_message_t)` for the packed struct: 1 (msg_type) +
4 (sequence_number) + 8 (timestamp_us) + 2 (payload_length) + 4 (crc32) +
234 (payload) = 253 bytes. -/
def espNowMessageSize : Nat := 19 + espNowPayloadCapacity

/-- Capacity of the receive and send queues (`xQueueCreate(20, ...)`). -/
def espNowQueueLength : Nat := 20

/-- Modulus of a 32-bit unsigned counter. -/
def U32 : Nat := 2 ^ 32

/-- Modulus of 64-bit unsigned arithmetic. -/
def U64 : Nat := 2 ^ 64

/-- Unsigned 64-bit subtraction `a - b` as computed on `uint64_t`. -/
def usub64 (a b : Nat) : Nat := (a % U64 + U64 - b % U64) % U64

/-- Little-endian bytes of a `uint32_t` as laid down by
`memcpy(dst, &v, sizeof(uint32_t))`. -/
def u32Bytes (v : Nat) : List Nat :=
  [v % 256, v / 256 % 256, v / 65536 % 256, v / 16777216 % 256]

/-- Value of a 4-byte little-endian buffer read back as a `uint32_t`. -/
def u32Value : List Nat → Nat
  | [a, b, c, d] => a % 256 + 256 * (b % 256) + 65536 * (c % 256) + 16777216 * (d % 256)
  | _ => 0

/-- The packed wire frame `esp_now_message_t` (src/unnamed/part_003). -/
structure EspNowMessage where
  msg_type : Nat
  sequence_number : Nat
  timestamp_us : Nat
  payload_length : Nat
  crc32 : Nat
  payload : List Nat
  deriving DecidableEq, Repr

/-- A peer-table record `esp_now_peer_info_t` (src/unnamed/part_003). -/
structure EspNowPeerInfo where
  mac_addr : List Nat
  rssi : Int
  last_seen_us : Nat
  packets_sent : Nat
  packets_received : Nat
  packets_lost : Nat
  is_active : Bool
  deriving DecidableEq, Repr

/-- Cumulative counters `esp_now_statistics_t` (src/unnamed/part_003). -/
structure EspNowStatistics where
  total_packets_sent : Nat
  total_packets_received : Nat
  total_packets_lost : Nat
  discovery_requests_sent : Nat
  discovery_responses_received : Nat
  total_bytes_sent : Nat
  total_bytes_received : Nat
  session_start_time_us : Nat
  deriving DecidableEq, Repr

/-- The `queued_message_t` element carried by both FreeRTOS queues:
a 6-byte address plus one frame. -/
structure QueuedMessage where
  mac_addr : List Nat
  msg : EspNowMessage
  deriving DecidableEq, Repr

/-- The mutable state of the `ESPNowManager` singleton. -/
structure ManagerState where
  initialized : Bool
  discovery_active : Bool
  local_mac : List Nat
  sequence_counter : Nat
  peers : List EspNowPeerInfo
  statistics : EspNowStatistics
  receive_queue : List QueuedMessage
  send_queue : List QueuedMessage
  deriving DecidableEq, Repr

/-- `ESPNowManager::find_peer`: first record whose `mac_addr` matches. -/
def find_peer (peers : List EspNowPeerInfo) (mac : List Nat) : Option EspNowPeerInfo :=
  peers.find? (fun p => decide (p.mac_addr = mac))

/-- In-place mutation through the pointer `find_peer` returns: rewrite the
first record matching `mac` with `f`, leave everything else alone. -/
def update_first_peer (peers : List EspNowPeerInfo) (mac : List Nat)
    (f : EspNowPeerInfo → EspNowPeerInfo) : List EspNowPeerInfo :=
  match peers with
  | [] => []
  | p :: rest =>
    if p.mac_addr = mac then f p :: rest
    else p :: update_first_peer rest mac f

/-- The `peers_.erase(it)` of `ESPNowManager::remove_peer`: drop the first
record matching `mac`. -/
def remove_first_peer (peers : List EspNowPeerInfo) (mac : List Nat) : List EspNowPeerInfo :=
  match peers with
  | [] => []
  | p :: rest => if p.mac_addr = mac then rest else p :: remove_first_peer rest mac

/-- `ESPNowManager::add_peer_internal` (performance_tests.cpp:962): refresh
`last_seen_us`/`is_active` of an existing record, otherwise append a fresh
record with zeroed counters.  The soft `ESP_NOW_MAX_PEERS` check only logs.
The external `esp_now_add_peer` call is assumed to succeed. -/
def add_peer_internal (st : ManagerState) (mac : List Nat) (now : Nat) :
    EspErr × ManagerState :=
  match find_peer st.peers mac with
  | some _ =>
    let refresh := fun (p : EspNowPeerInfo) => { p with last_seen_us := now, is_active := true }
    (.ok, { st with peers := update_first_peer st.peers mac refresh })
  | none =>
    let new_peer : EspNowPeerInfo :=
      { mac_addr := mac, rssi := 0, last_seen_us := now, packets_sent := 0,
        packets_received := 0, packets_lost := 0, is_active := true }
    (.ok, { st with peers := st.peers ++ [new_peer] })

/-- `ESPNowManager::remove_peer` (performance_tests.cpp:1012): erase the
first record matching `mac` and report `ESP_OK`, else `ESP_ERR_NOT_FOUND`. -/
def remove_peer (st : ManagerState) (mac : List Nat) : EspErr × ManagerState :=
  if (find_peer st.peers mac).isSome then
    (.ok, { st with peers := remove_first_peer st.peers mac })
  else
    (.notFound, st)

/-- `ESPNowManager::update_peer_stats` (performance_tests.cpp:1136): bump
one per-peer counter and refresh `last_seen_us` on the first record
matching `mac`; a miss is a silent no-op. -/
def update_peer_stats (st : ManagerState) (mac : List Nat)
    (is_received is_lost : Bool) (now : Nat) : ManagerState :=
  { st with peers := update_first_peer st.peers mac (fun p =>
      let p' := if is_received then { p with packets_received := p.packets_received + 1 }
        else if is_lost then { p with packets_lost := p.packets_lost + 1 }
        else { p with packets_sent := p.packets_sent + 1 }
      { p' with last_seen_us := now }) }

/-- The frame `ESPNowManager::send_message` assembles before enqueueing:
kind, wrapped sequence counter, timestamp, length, payload, and the
checksum `crcFn` computed over the preceding content. -/
def built_message (st : ManagerState) (msg_type : Nat) (data : List Nat)
    (now : Nat) (crcFn : EspNowMessage → Nat) : EspNowMessage :=
  let m : EspNowMessage :=
    { msg_type := msg_type, sequence_number := st.sequence_counter % U32,
      timestamp_us := now, payload_length := data.length, crc32 := 0,
      payload := data }
  { m with crc32 := crcFn m }

/-- `ESPNowManager::send_message` (performance_tests.cpp:1071): reject when
uninitialized, reject with `ESP_ERR_INVALID_SIZE` when `len` exceeds the
234-byte payload field, otherwise stamp the post-incremented sequence
counter and timestamp, compute the checksum and enqueue; a full send queue
yields `ESP_ERR_TIMEOUT` after the bounded `xQueueSend` wait. -/
def send_message (st : ManagerState) (mac : List Nat) (msg_type : Nat)
    (data : List Nat) (now : Nat) (crcFn : EspNowMessage → Nat) :
    EspErr × ManagerState :=
  if st.initialized = false then (.invalidState, st)
  else if espNowPayloadCapacity < data.length then (.invalidSize, st)
  else
    let msg := built_message st msg_type data now crcFn
    let st' := { st with sequence_counter := (st.sequence_counter + 1) % U32 }
    if espNowQueueLength ≤ st'.send_queue.length then (.timeout, st')
    else (.ok, { st' with send_queue := st'.send_queue ++ [{ mac_addr := mac, msg := msg }] })

/-- `ESPNowManager::send_ping` (performance_tests.cpp:1114): read the
current sequence counter as the ping identifier and send its four
little-endian bytes as a `PING` payload. -/
def send_ping (st : ManagerState) (mac : List Nat) (now : Nat)
    (crcFn : EspNowMessage → Nat) : EspErr × ManagerState :=
  let ping_id := st.sequence_counter % U32
  send_message st mac MSG_PING (u32Bytes ping_id) now crcFn

/-- `ESPNowManager::esp_now_recv_cb` (performance_tests.cpp:768): drop
frames shorter than `sizeof(esp_now_message_t)`; drop frames whose
recomputed checksum (`computed_crc`, standing for
`esp_crc32_le(0, data, len - 4)`) differs from the carried `crc32`;
otherwise count the frame, refresh the sender's peer record, and enqueue
the frame for the inbound worker, dropping it if the queue is full. -/
def esp_now_recv_cb (st : ManagerState) (src : List Nat) (msg : EspNowMessage)
    (len computed_crc now : Nat) : ManagerState :=
  if len < espNowMessageSize then st
  else if computed_crc ≠ msg.crc32 then st
  else
    let st1 := { st with statistics := { st.statistics with
        total_packets_received := st.statistics.total_packets_received + 1,
        total_bytes_received := st.statistics.total_bytes_received + len } }
    let st2 := update_peer_stats st1 src true false now
    if espNowQueueLength ≤ st2.receive_queue.length then st2
    else { st2 with receive_queue := st2.receive_queue ++ [{ mac_addr := src, msg := msg }] }

/-- One iteration of `ESPNowManager::receive_task`
(performance_tests.cpp:802) on a dequeued message: insert/refresh and
answer a discovery request, insert/refresh and count a discovery response,
answer a ping with a pong carrying the received sequence number, and pass
anything else through (the upward callback has no modelled state). -/
def receive_task_step (st : ManagerState) (qm : QueuedMessage) (now : Nat)
    (crcFn : EspNowMessage → Nat) : ManagerState :=
  if qm.msg.msg_type = MSG_DISCOVERY_REQUEST then
    let st1 := (add_peer_internal st qm.mac_addr now).2
    (send_message st1 qm.mac_addr MSG_DISCOVERY_RESPONSE st1.local_mac now crcFn).2
  else if qm.msg.msg_type = MSG_DISCOVERY_RESPONSE then
    let st1 := (add_peer_internal st qm.mac_addr now).2
    { st1 with statistics := { st1.statistics with
        discovery_responses_received := st1.statistics.discovery_responses_received + 1 } }
  else if qm.msg.msg_type = MSG_PING then
    (send_message st qm.mac_addr MSG_PONG (u32Bytes qm.msg.sequence_number) now crcFn).2
  else st

/-- Full sequential processing of one inbound frame: the receive callback
runs, then the inbound worker drains the front of the receive queue. -/
def process_frame (st : ManagerState) (src : List Nat) (msg : EspNowMessage)
    (len computed_crc now : Nat) (crcFn : EspNowMessage → Nat) : ManagerState :=
  let st1 := esp_now_recv_cb st src msg len computed_crc now
  match st1.receive_queue with
  | [] => st1
  | qm :: rest => receive_task_step { st1 with receive_queue := rest } qm now crcFn

/-- Outcome of the external bring-up calls made by
`ESPNowManager::initialize`: `radio_err` is the first failure among the
netif/event-loop/wifi/esp-now calls (none of which touch modelled state),
`mac` is the address `esp_wifi_get_mac` reports, and `alloc_ok` is whether
the queue and mutex creations succeed. -/
structure EspNowInitEnv where
  radio_err : Option EspErr
  mac : List Nat
  alloc_ok : Bool

/-- `ESPNowManager::initialize` (performance_tests.cpp:612): a no-op
returning `ESP_OK` when already initialized; otherwise run the external
bring-up chain, record the local address, create the queues and tasks,
stamp the session start time and mark the manager initialized. -/
def init_manager (st : ManagerState) (_channel : Nat) (env : EspNowInitEnv)
    (now : Nat) : EspErr × ManagerState :=
  if st.initialized then (.ok, st)
  else
    match env.radio_err with
    | some e => (e, st)
    | none =>
      let st1 := { st with local_mac := env.mac }
      if env.alloc_ok = false then (.noMem, st1)
      else
        let stats' := { st1.statistics with session_start_time_us := now }
        (.ok, { st1 with receive_queue := [], send_queue := [], statistics := stats', initialized := true })

/-- `PEER_TIMEOUT_US` of the cleanup task (src/unnamed/part_001:78). -/
def PEER_TIMEOUT_US : Nat := 60000000

/-- Staleness test of `peer_cleanup_task` (src/unnamed/part_001:89):
`(current_time_us - peer.last_seen_us) > PEER_TIMEOUT_US` in `uint64_t`
arithmetic. -/
def peer_is_stale (now : Nat) (p : EspNowPeerInfo) : Bool :=
  PEER_TIMEOUT_US < usub64 now p.last_seen_us

/-- Loop body of `peer_cleanup_task`: walk the snapshot and call
`remove_peer` on every record seen too long ago. -/
def cleanup_go (st : ManagerState) (now : Nat) : List EspNowPeerInfo → ManagerState
  | [] => st
  | p :: rest =>
    if peer_is_stale now p then cleanup_go (remove_peer st p.mac_addr).2 now rest
    else cleanup_go st now rest

/-- One pass of the periodic stale-peer sweep of `peer_cleanup_task`
(src/unnamed/part_001:74): snapshot `get_peers()` and remove every stale
record. -/
def peer_cleanup_sweep (st : ManagerState) (now : Nat) : ManagerState :=
  cleanup_go st now st.peers

/-- Scenario status `test_status_t` (src/unnamed/part_004). -/
inductive TestStatus where
  | pending
  | running
  | completed
  | failed
  deriving DecidableEq, Repr

/-- The `test_result_t` record appended to the result log
(src/unnamed/part_004).  The wall-clock timestamps and the float summary
statistics computed by `calculate_statistics` (average, min, max, standard
deviation, all unused by the claims) are not modelled; the measurement
vectors and per-scenario fields are. -/
structure TestResult where
  test_name : String
  status : TestStatus
  iterations_completed : Nat
  iterations_total : Nat
  error_message : String
  latency_measurements : List ℚ
  throughput_measurements : List Nat
  packet_loss_rates : List ℚ
  avg_throughput_bps : Nat
  avg_packet_loss_percent : ℚ
  reliability_passed : Bool
  devices_discovered : Nat
  max_range_meters : Nat
  deriving DecidableEq, Repr

/-- The orchestration-engine state the claims observe: the result log
guarded by `results_mutex_`. -/
structure FrameworkState where
  results : List TestResult
  deriving DecidableEq, Repr

/-- Per-iteration environment of a ping loop: `send_ok i` is the result of
the i-th `esp_now_manager_.send_ping` call (abstracting the concurrently
drained outbound queue), and `sim_latency i` is the elapsed-plus-random
value the source computes for a successfully sent ping.  The source never
consults the remote responder: no pong is awaited anywhere in the loop. -/
structure LatencyEnv where
  send_ok : Nat → Bool
  sim_latency : Nat → ℚ

/-- Result record `latency_test_result_t` of the performance-test layer
(performance_tests.hpp); the float summary statistics are not modelled. -/
structure LatencyTestResult where
  ping_count : Nat
  latency_measurements : List ℚ
  packets_lost : Nat
  packet_loss_percent : ℚ
  deriving DecidableEq, Repr

/-- Loop of `PerformanceTests::test_ping_pong_latency`
(performance_tests.cpp:89): a failed send counts as a lost packet and the
iteration records nothing; a successful send records the simulated latency
after a fixed 10 ms delay — whether or not a pong ever arrives. -/
def ping_pong_fold (env : LatencyEnv) (acc : List ℚ × Nat) : List Nat → List ℚ × Nat
  | [] => acc
  | i :: rest =>
    if env.send_ok i then ping_pong_fold env (acc.1 ++ [env.sim_latency i], acc.2) rest
    else ping_pong_fold env (acc.1, acc.2 + 1) rest

/-- `PerformanceTests::test_ping_pong_latency` (performance_tests.cpp:72):
send `ping_count` pings, count lost packets (send failures only), record a
simulated latency per successful send, and derive the loss percentage. -/
def test_ping_pong_latency (ping_count : Nat) (env : LatencyEnv) : LatencyTestResult :=
  let r := ping_pong_fold env ([], 0) (List.range ping_count)
  { ping_count := ping_count, latency_measurements := r.1, packets_lost := r.2,
    packet_loss_percent := (r.2 : ℚ) / (ping_count : ℚ) * 100 }

/-- Loop of `TestFramework::run_latency_test` (test_framework.cpp:205):
accumulates (measurements, successful_pings, iterations_completed); a
failed send skips the iteration entirely (`continue`), a successful one
records the measured-elapsed latency and sets
`iterations_completed = i + 1`. -/
def latency_fold (env : LatencyEnv) (acc : List ℚ × Nat × Nat) : List Nat → List ℚ × Nat × Nat
  | [] => acc
  | i :: rest =>
    if env.send_ok i then
      latency_fold env (acc.1 ++ [env.sim_latency i], acc.2.1 + 1, i + 1) rest
    else latency_fold env acc rest

/-- `TestFramework::run_latency_test` (test_framework.cpp:186): run the
ping loop, then mark the scenario `COMPLETED` iff at least one send
succeeded (`FAILED` with an error message otherwise) and append the result
record to the log. -/
def run_latency_test (fw : FrameworkState) (name : String) (_target : List Nat)
    (ping_count : Nat) (env : LatencyEnv) : EspErr × FrameworkState :=
  let r := latency_fold env ([], 0, 0) (List.range ping_count)
  let result : TestResult :=
    { test_name := name
      status := if 0 < r.2.1 then .completed else .failed
      iterations_completed := r.2.2
      iterations_total := ping_count
      error_message := if r.2.1 = 0 then "No successful ping responses" else ""
      latency_measurements := r.1
      throughput_measurements := []
      packet_loss_rates := []
      avg_throughput_bps := 0
      avg_packet_loss_percent := 0
      reliability_passed := false
      devices_discovered := 0
      max_range_meters := 0 }
  (.ok, { fw with results := fw.results ++ [result] })

/-- `TestFramework::calculate_packet_loss_rate` (test_framework.cpp:627):
`(sent - received) / sent * 100`, and `0` when nothing was sent. -/
def calculate_packet_loss_rate (sent received : Nat) : ℚ :=
  if sent = 0 then 0 else ((sent : ℚ) - (received : ℚ)) / (sent : ℚ) * 100

/-- Loop of `TestFramework::run_reliability_test` (test_framework.cpp:325):
returns the number of successful sends together with the payloads
attempted — the `memcpy(test_data, &i, sizeof(i))` little-endian bytes of
each sequence index. -/
def reliability_iter (env : Nat → Bool) : List Nat → Nat × List (List Nat)
  | [] => (0, [])
  | i :: rest =>
    let r := reliability_iter env rest
    ((if env i then r.1 + 1 else r.1), u32Bytes i :: r.2)

/-- `TestFramework::run_reliability_test` (test_framework.cpp:311): send
`packet_count` sequence-numbered packets at the fixed interval, set
`packets_acknowledged = packets_sent` (no acknowledgment channel exists),
derive the loss rate from `calculate_packet_loss_rate`, pass iff the loss
rate is strictly below 1 percent, and append the result record. -/
def run_reliability_test (fw : FrameworkState) (name : String) (_target : List Nat)
    (packet_count : Nat) (env : Nat → Bool) : EspErr × FrameworkState :=
  let packets_sent := (reliability_iter env (List.range packet_count)).1
  let packets_acknowledged := packets_sent
  let loss := calculate_packet_loss_rate packets_sent packets_acknowledged
  let result : TestResult :=
    { test_name := name
      status := if 0 < packets_sent then .completed else .failed
      iterations_completed := packet_count
      iterations_total := packet_count
      error_message := ""
      latency_measurements := []
      throughput_measurements := []
      packet_loss_rates := [loss]
      avg_throughput_bps := 0
      avg_packet_loss_percent := loss
      reliability_passed := decide (loss < (1 : ℚ))
      devices_discovered := 0
      max_range_meters := 0 }
  (.ok, { fw with results := fw.results ++ [result] })

/-- Environment of one throughput run: the wall-clock send loop of the
source is modelled as `iters` iterations whose send outcomes are
`send_ok`, with `duration_ms` the measured elapsed time. -/
structure ThroughputEnv where
  iters : Nat
  send_ok : Nat → Bool
  duration_ms : Nat

/-- `TestFramework::run_throughput_test` (test_framework.cpp:255): send
fixed-size payloads for the duration, mark `COMPLETED` iff at least one
send succeeded, derive `bits * 1000 / elapsed_ms` in integer arithmetic,
and append the result record. -/
def run_throughput_test (fw : FrameworkState) (name : String) (_target : List Nat)
    (payload_size : Nat) (env : ThroughputEnv) : EspErr × FrameworkState :=
  let packets_sent := (List.range env.iters).countP env.send_ok
  let total_bytes_sent := packets_sent * payload_size
  let tp := total_bytes_sent * 8 * 1000 / env.duration_ms
  let result : TestResult :=
    { test_name := name
      status := if 0 < packets_sent then .completed else .failed
      iterations_completed := packets_sent
      iterations_total := 0
      error_message := if packets_sent = 0 then "No packets sent successfully" else ""
      latency_measurements := []
      throughput_measurements := if 0 < packets_sent then [tp] else []
      packet_loss_rates := []
      avg_throughput_bps := if 0 < packets_sent then tp else 0
      avg_packet_loss_percent := 0
      reliability_passed := false
      devices_discovered := 0
      max_range_meters := 0 }
  (.ok, { fw with results := fw.results ++ [result] })

/-- Number of distance steps of `TestFramework::run_range_test`. -/
def range_test_steps : Nat := 10

/-- Probe packets sent per range step. -/
def range_packets_per_step : Nat := 10

/-- Step loop of `TestFramework::run_range_test` (test_framework.cpp:384):
at each step send ten pings, compute the success rate, and remember
`step + 1` whenever the rate reaches 90 percent. -/
def range_fold (env : Nat → Nat → Bool) (acc : Nat) : List Nat → Nat
  | [] => acc
  | step :: rest =>
    let succ := (List.range range_packets_per_step).countP (env step)
    let rate := (succ : ℚ) / (range_packets_per_step : ℚ) * 100
    range_fold env (if (90 : ℚ) ≤ rate then step + 1 else acc) rest

/-- `TestFramework::run_range_test` (test_framework.cpp:368): run the
manually gated step loop, report `max_successful_range * 5` meters, mark
the scenario `COMPLETED`, and append the result record. -/
def run_range_test (fw : FrameworkState) (name : String) (_target : List Nat)
    (env : Nat → Nat → Bool) : EspErr × FrameworkState :=
  let max_range := range_fold env 0 (List.range range_test_steps)
  let result : TestResult :=
    { test_name := name
      status := .completed
      iterations_completed := range_test_steps
      iterations_total := 0
      error_message := ""
      latency_measurements := []
      throughput_measurements := []
      packet_loss_rates := []
      avg_throughput_bps := 0
      avg_packet_loss_percent := 0
      reliability_passed := false
      devices_discovered := 0
      max_range_meters := max_range * 5 }
  (.ok, { fw with results := fw.results ++ [result] })

/-- Send-outcome environments for the five scenarios of the performance
suite, in the order the suite runs them. -/
structure PerfEnv where
  latency : LatencyEnv
  tp_small : ThroughputEnv
  tp_large : ThroughputEnv
  rel : Nat → Bool
  range : Nat → Nat → Bool

/-- `TestFramework::run_all_performance_tests` (test_framework.cpp:445):
fail fast with `ESP_ERR_NOT_FOUND` when the peer snapshot is empty,
otherwise run latency, two throughput runs, reliability and range against
the first known peer, propagating the first failing return value. -/
def run_all_performance_tests (mgr : ManagerState) (fw : FrameworkState)
    (env : PerfEnv) : EspErr × FrameworkState :=
  match mgr.peers with
  | [] => (.notFound, fw)
  | p :: _ =>
    let target := p.mac_addr
    match run_latency_test fw "Latency Test - 100 pings" target 100 env.latency with
    | (.ok, fw1) =>
      match run_throughput_test fw1 "Throughput Test - Small Payload" target 64 env.tp_small with
      | (.ok, fw2) =>
        match run_throughput_test fw2 "Throughput Test - Large Payload" target 200 env.tp_large with
        | (.ok, fw3) =>
          match run_reliability_test fw3 "Reliability Test" target 1000 env.rel with
          | (.ok, fw4) => run_range_test fw4 "Range Test" target env.range
          | r => r
        | r => r
      | r => r
    | r => r

/-- Sample 6-byte link address. -/
def mac_a : List Nat := [1, 2, 3, 4, 5, 6]

/-- A second sample 6-byte link address. -/
def mac_b : List Nat := [7, 8, 9, 10, 11, 12]

/-- All-zero statistics, as left by `memset(&statistics_, 0, ...)`. -/
def zeroStats : EspNowStatistics :=
  { total_packets_sent := 0, total_packets_received := 0, total_packets_lost := 0,
    discovery_requests_sent := 0, discovery_responses_received := 0,
    total_bytes_sent := 0, total_bytes_received := 0, session_start_time_us := 0 }

/-- A sample initialized manager with an empty peer table and queues. -/
def baseState : ManagerState :=
  { initialized := true, discovery_active := false, local_mac := mac_a,
    sequence_counter := 0, peers := [], statistics := zeroStats,
    receive_queue := [], send_queue := [] }

/-- A trivial stand-in for the external checksum routine. -/
def zeroCrc : EspNowMessage → Nat := fun _ => 0

/-- A sample ping frame from the wire. -/
def pingMessage : EspNowMessage :=
  { msg_type := MSG_PING, sequence_number := 77, timestamp_us := 0,
    payload_length := 4, crc32 := 0, payload := u32Bytes 77 }

/-- A sample discovery-request frame from the wire. -/
def discoveryRequestMessage : EspNowMessage :=
  { msg_type := MSG_DISCOVERY_REQUEST, sequence_number := 0, timestamp_us := 0,
    payload_length := 6, crc32 := 0, payload := mac_b }

/-- A sample peer record with the given address and last-seen time. -/
def peerAt (mac : List Nat) (seen : Nat) : EspNowPeerInfo :=
  { mac_addr := mac, rssi := 0, last_seen_us := seen, packets_sent := 0,
    packets_received := 0, packets_lost := 0, is_active := true }

/-- Sequential processing of one timed frame arriving from address `m`:
the frame is full-length and its recomputed checksum agrees with the
carried one, so the receive path accepts it. -/
def c4_step (m : List Nat) (crcFn : EspNowMessage → Nat) (st : ManagerState)
    (f : EspNowMessage × Nat) : ManagerState :=
  process_frame st m f.1 espNowMessageSize f.1.crc32 f.2 crcFn

/-- A latency-loop environment in which every `send_ping` call succeeds
and the simulated measurement is a constant. -/
def alwaysLatencyEnv : LatencyEnv := { send_ok := fun _ => true, sim_latency := fun _ => 7 }

/-- Sample environments for a full performance-suite run. -/
def samplePerfEnv : PerfEnv :=
  { latency := alwaysLatencyEnv
    tp_small := { iters := 3, send_ok := fun _ => true, duration_ms := 1 }
    tp_large := { iters := 3, send_ok := fun _ => true, duration_ms := 1 }
    rel := fun _ => true
    range := fun _ _ => true }

/-- A manager whose table holds one stale peer (last seen at 0) and one
fresh peer (last seen at 70000000), observed at time 80000000. -/
def sweepState : ManagerState :=
  { baseState with peers := [peerAt mac_a 0, peerAt mac_b 70000000] }

/-- A dequeued ping from `mac_b`. -/
def pingQueued : QueuedMessage := { mac_addr := mac_b, msg := pingMessage }

/-- Two timed discovery-request frames from the same sender. -/
def discoveryFrames : List (EspNowMessage × Nat) :=
  [(discoveryRequestMessage, 10), (discoveryRequestMessage, 20)]

/-- Reading back the four little-endian bytes of a `uint32_t` recovers the
value modulo `2 ^ 32`. -/
theorem u32Value_u32Bytes (v : Nat) : u32Value (u32Bytes v) = v % U32 := by
  have h : U32 = 4294967296 := by norm_num [U32]
  rw [h]
  simp only [u32Value, u32Bytes]
  omega

/-- C2: with an initialized manager, a payload longer than the 234-byte
frame capacity makes `send_message` fail with `ESP_ERR_INVALID_SIZE`
(`PayloadTooLarge`) and leaves the whole manager state — outbound queue,
sequence counter, peer table, statistics — unchanged. -/
theorem c2_payload_too_large (st : ManagerState) (mac : List Nat) (msg_type : Nat)
    (data : List Nat) (now : Nat) (crcFn : EspNowMessage → Nat)
    (h_init : st.initialized = true) (h_len : espNowPayloadCapacity < data.length) :
    send_message st mac msg_type data now crcFn = (.invalidSize, st) := by
  simp [send_message, h_init, h_len]

/-- Witness for C2 at a 235-byte payload. -/
theorem c2_witness :
    baseState.initialized = true ∧
    espNowPayloadCapacity < (List.replicate 235 0).length ∧
    send_message baseState mac_b MSG_TEST_DATA (List.replicate 235 0) 5 zeroCrc =
      (.invalidSize, baseState) :=
  ⟨rfl, by decide,
    c2_payload_too_large baseState mac_b MSG_TEST_DATA (List.replicate 235 0) 5 zeroCrc
      rfl (by decide)⟩

/-- C3: a received frame whose recomputed checksum differs from the
carried `crc32` field is dropped with no observable state change: no
delivery upward, no peer record created or refreshed, no statistics
counter changed — the state after the callback equals the state before. -/
theorem c3_checksum_mismatch_drop (st : ManagerState) (src : List Nat)
    (msg : EspNowMessage) (len computed_crc now : Nat)
    (h : computed_crc ≠ msg.crc32) :
    esp_now_recv_cb st src msg len computed_crc now = st := by
  unfold esp_now_recv_cb
  by_cases hl : len < espNowMessageSize
  · simp [hl]
  · simp [hl, h]

/-- Witness for C3 at a concrete corrupted frame. -/
theorem c3_witness :
    (0 : Nat) ≠ ({ pingMessage with crc32 := 5 } : EspNowMessage).crc32 ∧
    esp_now_recv_cb baseState mac_b { pingMessage with crc32 := 5 }
      espNowMessageSize 0 9 = baseState :=
  ⟨by decide,
    c3_checksum_mismatch_drop baseState mac_b { pingMessage with crc32 := 5 }
      espNowMessageSize 0 9 (by decide)⟩

/-- C9: calling `initialize` on an already-initialized manager is a no-op
returning `ESP_OK`: the peer table, statistics, queues, sequence counter
and every other field are untouched. -/
theorem c9_init_idempotent (st : ManagerState) (channel : Nat)
    (env : EspNowInitEnv) (now : Nat) (h : st.initialized = true) :
    init_manager st channel env now = (.ok, st) := by
  simp [init_manager, h]

/-- Witness for C9 on the sample initialized manager. -/
theorem c9_witness :
    baseState.initialized = true ∧
    init_manager baseState 36 { radio_err := none, mac := mac_a, alloc_ok := true } 5 =
      (.ok, baseState) :=
  ⟨rfl, c9_init_idempotent baseState 36 { radio_err := none, mac := mac_a, alloc_ok := true } 5 rfl⟩

/-- C6: entering the performance suite with an empty peer table returns
`ESP_ERR_NOT_FOUND` (`NoPeerAvailable`) before any scenario runs: the
latency, throughput, reliability and range scenarios never execute and the
result log is exactly the one passed in. -/
theorem c6_no_peer_fails_fast (mgr : ManagerState) (fw : FrameworkState)
    (env : PerfEnv) (h : mgr.peers = []) :
    run_all_performance_tests mgr fw env = (.notFound, fw) := by
  simp [run_all_performance_tests, h]

/-- Witness for C6 on the sample peer-less manager. -/
theorem c6_witness :
    baseState.peers = [] ∧
    run_all_performance_tests baseState { results := [] } samplePerfEnv =
      (.notFound, { results := [] }) :=
  ⟨rfl, c6_no_peer_fails_fast baseState { results := [] } samplePerfEnv rfl⟩

/-- C1: evaluation of the latency scenario at the claim's failing input.
With `ping_count = 100` and every local `send_ping` succeeding, the
performance-test loop reports `packets_lost = 0` and 100 recorded
measurements, and the orchestration-engine loop marks the scenario
`COMPLETED` — independently of any responder, because the source never
waits for a pong: losses are counted only on local send failure. -/
theorem c1_code_eval :
    (test_ping_pong_latency 100 alwaysLatencyEnv).packets_lost = 0 ∧
    (test_ping_pong_latency 100 alwaysLatencyEnv).latency_measurements.length = 100 ∧
    ((run_latency_test { results := [] } "Latency Test - 100 pings" mac_a 100
        alwaysLatencyEnv).2.results.map TestResult.status) = [.completed] := by
  refine ⟨by decide, by decide, by decide⟩

/-- C7: when the inbound worker processes a valid ping and the outbound
queue has room, it synchronously enqueues exactly one pong addressed to
the ping's sender, whose payload is the four little-endian bytes of the
ping's header sequence number — decoding back to that sequence number. -/
theorem c7_ping_pong_reply (st : ManagerState) (qm : QueuedMessage) (now : Nat)
    (crcFn : EspNowMessage → Nat) (h_ping : qm.msg.msg_type = MSG_PING)
    (h_init : st.initialized = true)
    (h_room : st.send_queue.length < espNowQueueLength) :
    (receive_task_step st qm now crcFn).send_queue =
      st.send_queue ++ [⟨qm.mac_addr, built_message st MSG_PONG (u32Bytes qm.msg.sequence_number) now crcFn⟩] ∧
    (built_message st MSG_PONG (u32Bytes qm.msg.sequence_number) now crcFn).payload =
      u32Bytes qm.msg.sequence_number ∧
    u32Value (u32Bytes qm.msg.sequence_number) = qm.msg.sequence_number % U32 := by
  refine ⟨?_, rfl, u32Value_u32Bytes _⟩
  have h_cap : ¬ espNowPayloadCapacity < (u32Bytes qm.msg.sequence_number).length := by
    simp [espNowPayloadCapacity, ESP_NOW_MAX_DATA_LEN, u32Bytes]
  have h_full : ¬ espNowQueueLength ≤ st.send_queue.length := Nat.not_le.mpr h_room
  simp [receive_task_step, h_ping, MSG_PING, MSG_DISCOVERY_REQUEST, MSG_DISCOVERY_RESPONSE,
    send_message, h_init, h_cap, h_full]

/-- Witness for C7: a ping from `mac_b` processed by the sample manager. -/
theorem c7_witness :
    pingQueued.msg.msg_type = MSG_PING ∧
    baseState.initialized = true ∧
    baseState.send_queue.length < espNowQueueLength ∧
    ((receive_task_step baseState pingQueued 9 zeroCrc).send_queue =
      baseState.send_queue ++ [⟨pingQueued.mac_addr, built_message baseState MSG_PONG (u32Bytes pingQueued.msg.sequence_number) 9 zeroCrc⟩] ∧
    (built_message baseState MSG_PONG (u32Bytes pingQueued.msg.sequence_number) 9 zeroCrc).payload =
      u32Bytes pingQueued.msg.sequence_number ∧
    u32Value (u32Bytes pingQueued.msg.sequence_number) = pingQueued.msg.sequence_number % U32) :=
  ⟨rfl, rfl, by decide, c7_ping_pong_reply baseState pingQueued 9 zeroCrc rfl rfl (by decide)⟩

/-- With `received` set equal to `sent`, the loss-rate formula of the
source yields zero, whatever the send outcomes were. -/
theorem calc_loss_self (n : Nat) : calculate_packet_loss_rate n n = 0 := by
  by_cases h : n = 0 <;> simp [calculate_packet_loss_rate, h]

/-- The reliability loop attempts exactly the little-endian byte images of
the sequence indices, in order. -/
theorem reliability_iter_trace (env : Nat → Bool) (l : List Nat) :
    (reliability_iter env l).2 = l.map u32Bytes := by
  induction l with
  | nil => rfl
  | cons i rest ih => simp [reliability_iter, ih]

/-- C5 (amended): the reliability scenario attempts `packet_count`
sequentially numbered sends, sets `packets_acknowledged` equal to
`packets_sent`, so the recorded loss rate is always `0` and
`reliability_passed` is always `true`; the pass predicate is the strict
comparison `loss < 1`, under which a loss rate of exactly 1 percent fails
and one of 0.99 percent passes; the scenario status is `FAILED` exactly
when no send succeeded. -/
theorem c5_reliability_amended (fw : FrameworkState) (name : String)
    (target : List Nat) (packet_count : Nat) (env : Nat → Bool) :
    (run_reliability_test fw name target packet_count env).1 = .ok ∧
    (run_reliability_test fw name target packet_count env).2.results.map
        TestResult.avg_packet_loss_percent =
      fw.results.map TestResult.avg_packet_loss_percent ++ [0] ∧
    (run_reliability_test fw name target packet_count env).2.results.map
        TestResult.reliability_passed =
      fw.results.map TestResult.reliability_passed ++ [true] ∧
    (run_reliability_test fw name target packet_count env).2.results.map
        TestResult.status =
      fw.results.map TestResult.status ++
        [if 0 < (reliability_iter env (List.range packet_count)).1 then .completed else .failed] ∧
    (reliability_iter env (List.range packet_count)).2 =
      (List.range packet_count).map u32Bytes ∧
    calculate_packet_loss_rate 10000 9900 = 1 ∧
    decide (calculate_packet_loss_rate 10000 9900 < (1 : ℚ)) = false ∧
    calculate_packet_loss_rate 10000 9901 = 99 / 100 ∧
    decide (calculate_packet_loss_rate 10000 9901 < (1 : ℚ)) = true := by
  refine ⟨rfl, ?_, ?_, ?_, reliability_iter_trace env (List.range packet_count),
    by norm_num [calculate_packet_loss_rate], ?_,
    by norm_num [calculate_packet_loss_rate], ?_⟩
  · simp [run_reliability_test, calc_loss_self]
  · simp [run_reliability_test, calc_loss_self]
  · simp [run_reliability_test]
  · have h : calculate_packet_loss_rate 10000 9900 = 1 := by
      norm_num [calculate_packet_loss_rate]
    rw [h]; norm_num
  · have h : calculate_packet_loss_rate 10000 9901 = 99 / 100 := by
      norm_num [calculate_packet_loss_rate]
    rw [h]; norm_num

/-- C5 counterexample: with 100 attempts of which 50 fail, the code
records a loss rate of 0 and `reliability_passed = true`, not the 50
percent loss rate and failed verdict the claim's send-failure-fraction
reading demands. -/
theorem c5_counterexample :
    ((run_reliability_test { results := [] } "Reliability Test" mac_a 100
        (fun i => decide (i < 50))).2.results.map TestResult.avg_packet_loss_percent = [0] ∧
     (run_reliability_test { results := [] } "Reliability Test" mac_a 100
        (fun i => decide (i < 50))).2.results.map TestResult.reliability_passed = [true]) ∧
    ¬ ((run_reliability_test { results := [] } "Reliability Test" mac_a 100
        (fun i => decide (i < 50))).2.results.map TestResult.avg_packet_loss_percent = [50] ∧
       (run_reliability_test { results := [] } "Reliability Test" mac_a 100
        (fun i => decide (i < 50))).2.results.map TestResult.reliability_passed = [false]) := by
  have h0 : (run_reliability_test { results := [] } "Reliability Test" mac_a 100
      (fun i => decide (i < 50))).2.results.map TestResult.avg_packet_loss_percent = [0] := by
    simp [run_reliability_test, calc_loss_self]
  have h1 : (run_reliability_test { results := [] } "Reliability Test" mac_a 100
      (fun i => decide (i < 50))).2.results.map TestResult.reliability_passed = [true] := by
    simp [run_reliability_test, calc_loss_self]
  refine ⟨⟨h0, h1⟩, ?_⟩
  intro hcontra
  rw [h0] at hcontra
  exact absurd hcontra.1 (by norm_num)

/-- Unsigned 64-bit subtraction agrees with truncated subtraction when the
clock is monotonic and in range. -/
theorem usub64_eq_sub (a b : Nat) (hb : b ≤ a) (ha : a < U64) : usub64 a b = a - b := by
  have h64 : U64 = 18446744073709551616 := by norm_num [U64]
  simp only [usub64, h64]
  omega

/-- Erasing by an address that does not occur in the prefix removes
exactly the first matching record. -/
theorem remove_first_peer_append (pre : List EspNowPeerInfo) (p : EspNowPeerInfo)
    (rest : List EspNowPeerInfo)
    (h : p.mac_addr ∉ pre.map EspNowPeerInfo.mac_addr) :
    remove_first_peer (pre ++ p :: rest) p.mac_addr = pre ++ rest := by
  induction pre with
  | nil => simp [remove_first_peer]
  | cons q pre ih =>
    have h1 : p.mac_addr ≠ q.mac_addr := by
      intro hh; exact h (by simp [hh])
    have h2 : p.mac_addr ∉ pre.map EspNowPeerInfo.mac_addr := by
      intro hh; exact h (by simp [hh])
    simp only [List.cons_append, remove_first_peer, List.append_eq]
    rw [if_neg (Ne.symm h1), ih h2]

/-- A record present in the table is found by `find_peer`. -/
theorem find_peer_isSome_of_mem (l : List EspNowPeerInfo) (p : EspNowPeerInfo)
    (h : p ∈ l) : (find_peer l p.mac_addr).isSome := by
  induction l with
  | nil => simp at h
  | cons q rest ih =>
    by_cases hq : q.mac_addr = p.mac_addr
    · rw [find_peer, List.find?_cons_of_pos _ (by simp [hq])]
      rfl
    · rcases List.mem_cons.mp h with rfl | hmem
      · exact absurd rfl hq
      · rw [find_peer, List.find?_cons_of_neg _ (by simp [hq])]
        exact ih hmem

/-- Walking the loop of `peer_cleanup_task` over a snapshot suffix removes
exactly its stale records, provided addresses are unique. -/
theorem cleanup_go_spec (now : Nat) :
    ∀ (l kept : List EspNowPeerInfo) (st : ManagerState),
      st.peers = kept ++ l →
      ((kept ++ l).map EspNowPeerInfo.mac_addr).Nodup →
      (cleanup_go st now l).peers = kept ++ l.filter (fun p => !peer_is_stale now p) := by
  intro l
  induction l with
  | nil =>
    intro kept st hst _
    simpa [cleanup_go] using hst
  | cons p rest ih =>
    intro kept st hst hnd
    cases hs : peer_is_stale now p with
    | true =>
      have hmem : p ∈ st.peers := by rw [hst]; simp
      have hsome : (find_peer st.peers p.mac_addr).isSome :=
        find_peer_isSome_of_mem _ _ hmem
      have hnotin : p.mac_addr ∉ kept.map EspNowPeerInfo.mac_addr := by
        intro hin
        rw [List.map_append] at hnd
        exact (List.nodup_append.mp hnd).2.2 hin (by simp)
      have hpeers : (remove_peer st p.mac_addr).2.peers = kept ++ rest := by
        rw [remove_peer, if_pos hsome]
        simpa [hst] using remove_first_peer_append kept p rest hnotin
      have hnd' : ((kept ++ rest).map EspNowPeerInfo.mac_addr).Nodup := by
        have hsub : (kept ++ rest).Sublist (kept ++ p :: rest) :=
          List.Sublist.append_left (List.sublist_cons_self p rest) kept
        exact List.Nodup.sublist (hsub.map _) hnd
      have hrec := ih kept (remove_peer st p.mac_addr).2 hpeers hnd'
      simp only [cleanup_go]
      rw [if_pos hs, hrec]
      simp [hs]
    | false =>
      have hrec := ih (kept ++ [p]) st (by rw [hst]; simp) (by simpa using hnd)
      simp only [cleanup_go]
      rw [if_neg (by simp [hs]), hrec]
      simp [hs]

/-- C8: under unique addresses and a monotonic in-range clock, one pass of
the periodic cleanup sweep removes exactly the peers whose elapsed time
since `last_seen_us` strictly exceeds the 60-second staleness timeout and
keeps every other record; a stale peer is absent afterwards, a fresh one
still present. -/
theorem c8_stale_sweep (st : ManagerState) (now : Nat)
    (h_nd : (st.peers.map EspNowPeerInfo.mac_addr).Nodup)
    (h_mono : ∀ p ∈ st.peers, p.last_seen_us ≤ now) (h_now : now < U64) :
    (peer_cleanup_sweep st now).peers =
      st.peers.filter (fun p => decide (now - p.last_seen_us ≤ PEER_TIMEOUT_US)) ∧
    (∀ p ∈ st.peers, PEER_TIMEOUT_US < now - p.last_seen_us →
        p ∉ (peer_cleanup_sweep st now).peers) ∧
    (∀ p ∈ st.peers, now - p.last_seen_us ≤ PEER_TIMEOUT_US →
        p ∈ (peer_cleanup_sweep st now).peers) := by
  have hmain : (peer_cleanup_sweep st now).peers =
      st.peers.filter (fun p => !peer_is_stale now p) :=
    cleanup_go_spec now st.peers [] st rfl (by simpa using h_nd)
  have hpred : ∀ p ∈ st.peers,
      (!peer_is_stale now p) = decide (now - p.last_seen_us ≤ PEER_TIMEOUT_US) := by
    intro p hp
    have hsub := usub64_eq_sub now p.last_seen_us (h_mono p hp) h_now
    simp only [peer_is_stale, hsub]
    rw [← decide_not]
    exact decide_eq_decide.mpr Nat.not_lt
  have hmain' : (peer_cleanup_sweep st now).peers =
      st.peers.filter (fun p => decide (now - p.last_seen_us ≤ PEER_TIMEOUT_US)) := by
    rw [hmain]
    exact List.filter_congr hpred
  refine ⟨hmain', ?_, ?_⟩
  · intro p hp hstale hin
    rw [hmain'] at hin
    have := (List.mem_filter.mp hin).2
    simp at this
    omega
  · intro p hp hfresh
    rw [hmain']
    exact List.mem_filter.mpr ⟨hp, decide_eq_true hfresh⟩

/-- Witness for C8: a table with one stale and one fresh peer swept at
time 80000000. -/
theorem c8_witness :
    ((sweepState.peers.map EspNowPeerInfo.mac_addr).Nodup ∧
      (∀ p ∈ sweepState.peers, p.last_seen_us ≤ 80000000) ∧ 80000000 < U64) ∧
    (peer_cleanup_sweep sweepState 80000000).peers =
      sweepState.peers.filter (fun p => decide (80000000 - p.last_seen_us ≤ PEER_TIMEOUT_US)) :=
  ⟨⟨by decide, by decide, by decide⟩,
    (c8_stale_sweep sweepState 80000000 (by decide) (by decide) (by decide)).1⟩

/-- Rewriting the first matching record keeps the address column intact as
long as the rewrite preserves the address. -/
theorem update_first_peer_map_mac (l : List EspNowPeerInfo) (mac : List Nat)
    (f : EspNowPeerInfo → EspNowPeerInfo) (hf : ∀ p, (f p).mac_addr = p.mac_addr) :
    (update_first_peer l mac f).map EspNowPeerInfo.mac_addr =
      l.map EspNowPeerInfo.mac_addr := by
  induction l with
  | nil => rfl
  | cons p rest ih =>
    by_cases h : p.mac_addr = mac
    · simp [update_first_peer, h, hf]
    · simp [update_first_peer, h, ih]

/-- Erasing the first matching record yields a sublist of the table. -/
theorem remove_first_peer_sublist (l : List EspNowPeerInfo) (mac : List Nat) :
    (remove_first_peer l mac).Sublist l := by
  induction l with
  | nil => simp [remove_first_peer]
  | cons p rest ih =>
    by_cases h : p.mac_addr = mac
    · simp only [remove_first_peer]
      rw [if_pos h]
      exact List.sublist_cons_self p rest
    · simp only [remove_first_peer]
      rw [if_neg h]
      exact List.Sublist.cons₂ p ih

/-- Inserting or refreshing through `add_peer_internal` preserves
uniqueness of the address column. -/
theorem add_peer_internal_nodup (st : ManagerState) (mac : List Nat) (now : Nat)
    (h : (st.peers.map EspNowPeerInfo.mac_addr).Nodup) :
    ((add_peer_internal st mac now).2.peers.map EspNowPeerInfo.mac_addr).Nodup := by
  rw [add_peer_internal]
  cases hf : find_peer st.peers mac with
  | some p =>
    have hmap := update_first_peer_map_mac st.peers mac
      (fun p => { p with last_seen_us := now, is_active := true }) (fun _ => rfl)
    simpa [hmap] using h
  | none =>
    have hnm : mac ∉ st.peers.map EspNowPeerInfo.mac_addr := by
      intro hin
      rcases List.mem_map.mp hin with ⟨q, hq, hqm⟩
      have := List.find?_eq_none.mp hf q hq
      simp [hqm] at this
    simp only [List.map_append]
    refine List.Nodup.append h (List.nodup_singleton _) ?_
    intro a ha hb
    simp at hb
    exact hnm (hb ▸ ha)

/-- `remove_peer` preserves uniqueness of the address column. -/
theorem remove_peer_nodup (st : ManagerState) (mac : List Nat)
    (h : (st.peers.map EspNowPeerInfo.mac_addr).Nodup) :
    ((remove_peer st mac).2.peers.map EspNowPeerInfo.mac_addr).Nodup := by
  rw [remove_peer]
  by_cases hf : (find_peer st.peers mac).isSome
  · simp only [hf, if_true]
    exact List.Nodup.sublist ((remove_first_peer_sublist st.peers mac).map _) h
  · simp only [hf, if_false]
    exact h

/-- `update_peer_stats` leaves the address column unchanged. -/
theorem update_peer_stats_map_mac (st : ManagerState) (mac : List Nat)
    (is_received is_lost : Bool) (now : Nat) :
    ((update_peer_stats st mac is_received is_lost now).peers.map EspNowPeerInfo.mac_addr) =
      st.peers.map EspNowPeerInfo.mac_addr := by
  refine update_first_peer_map_mac st.peers mac _ ?_
  intro p
  cases is_received <;> cases is_lost <;> rfl

/-- The receive callback leaves the address column unchanged: it only
refreshes counters of an existing record and enqueues. -/
theorem esp_now_recv_cb_map_mac (st : ManagerState) (src : List Nat)
    (msg : EspNowMessage) (len crc now : Nat) :
    ((esp_now_recv_cb st src msg len crc now).peers.map EspNowPeerInfo.mac_addr) =
      st.peers.map EspNowPeerInfo.mac_addr := by
  rw [esp_now_recv_cb]
  by_cases h1 : len < espNowMessageSize
  · simp [h1]
  · by_cases h2 : crc ≠ msg.crc32
    · simp [h1, h2]
    · have hupd := update_peer_stats_map_mac
        { st with statistics := { st.statistics with
            total_packets_received := st.statistics.total_packets_received + 1,
            total_bytes_received := st.statistics.total_bytes_received + len } }
        src true false now
      by_cases h3 : espNowQueueLength ≤ (update_peer_stats
          { st with statistics := { st.statistics with
              total_packets_received := st.statistics.total_packets_received + 1,
              total_bytes_received := st.statistics.total_bytes_received + len } }
          src true false now).receive_queue.length
      · simpa [h1, h2, h3] using hupd
      · simpa [h1, h2, h3] using hupd

/-- `send_message` never touches the peer table or the receive queue. -/
theorem send_message_preserves (st : ManagerState) (mac : List Nat) (msg_type : Nat)
    (data : List Nat) (now : Nat) (crcFn : EspNowMessage → Nat) :
    (send_message st mac msg_type data now crcFn).2.peers = st.peers ∧
    (send_message st mac msg_type data now crcFn).2.receive_queue = st.receive_queue := by
  rw [send_message]
  by_cases h1 : st.initialized = false
  · simp [h1]
  · by_cases h2 : espNowPayloadCapacity < data.length
    · simp [h1, h2]
    · by_cases h3 : espNowQueueLength ≤ st.send_queue.length
      · simp [h1, h2, h3]
      · simp [h1, h2, h3]

/-- One inbound-worker step preserves uniqueness of the address column. -/
theorem receive_task_step_nodup (st : ManagerState) (qm : QueuedMessage) (now : Nat)
    (crcFn : EspNowMessage → Nat)
    (h : (st.peers.map EspNowPeerInfo.mac_addr).Nodup) :
    ((receive_task_step st qm now crcFn).peers.map EspNowPeerInfo.mac_addr).Nodup := by
  rw [receive_task_step]
  by_cases h1 : qm.msg.msg_type = MSG_DISCOVERY_REQUEST
  · rw [if_pos h1]
    have hsend := (send_message_preserves (add_peer_internal st qm.mac_addr now).2
      qm.mac_addr MSG_DISCOVERY_RESPONSE (add_peer_internal st qm.mac_addr now).2.local_mac
      now crcFn).1
    rw [hsend]
    exact add_peer_internal_nodup st qm.mac_addr now h
  · by_cases h2 : qm.msg.msg_type = MSG_DISCOVERY_RESPONSE
    · rw [if_neg h1, if_pos h2]
      exact add_peer_internal_nodup st qm.mac_addr now h
    · by_cases h3 : qm.msg.msg_type = MSG_PING
      · rw [if_neg h1, if_neg h2, if_pos h3]
        have hsend := (send_message_preserves st qm.mac_addr MSG_PONG
          (u32Bytes qm.msg.sequence_number) now crcFn).1
        rw [hsend]
        exact h
      · rw [if_neg h1, if_neg h2, if_neg h3]
        exact h

/-- With a unique address column, a lookup by address matches at most one
record. -/
theorem nodup_filter_mac_length_le (l : List EspNowPeerInfo) (mac : List Nat)
    (h : (l.map EspNowPeerInfo.mac_addr).Nodup) :
    (l.filter (fun p => decide (p.mac_addr = mac))).length ≤ 1 := by
  induction l with
  | nil => simp
  | cons p rest ih =>
    rw [List.map_cons, List.nodup_cons] at h
    by_cases hp : p.mac_addr = mac
    · rw [List.filter_cons_of_pos (by simp [hp])]
      have hnil : rest.filter (fun p => decide (p.mac_addr = mac)) = [] := by
        rw [List.filter_eq_nil_iff]
        intro q hq hdec
        have hqm : q.mac_addr = mac := by simpa using hdec
        exact h.1 (List.mem_map.mpr ⟨q, hq, by rw [hqm, hp]⟩)
      simp [hnil]
    · rw [List.filter_cons_of_neg (by simp [hp])]
      exact ih h.2

/-- C10: no two peer records ever share a link address — a lookup by
address identifies at most one record, and every table-mutating operation
(insert/refresh via `add_peer_internal`, explicit `remove_peer`, counter
refresh via `update_peer_stats`, the receive callback, and a full inbound
worker step) preserves uniqueness of the address column. -/
theorem c10_mac_uniqueness (st : ManagerState) (mac src : List Nat)
    (now len crc : Nat) (msg : EspNowMessage) (qm : QueuedMessage)
    (is_received is_lost : Bool) (crcFn : EspNowMessage → Nat)
    (h : (st.peers.map EspNowPeerInfo.mac_addr).Nodup) :
    (st.peers.filter (fun p => decide (p.mac_addr = mac))).length ≤ 1 ∧
    ((add_peer_internal st mac now).2.peers.map EspNowPeerInfo.mac_addr).Nodup ∧
    ((remove_peer st mac).2.peers.map EspNowPeerInfo.mac_addr).Nodup ∧
    ((update_peer_stats st mac is_received is_lost now).peers.map EspNowPeerInfo.mac_addr).Nodup ∧
    ((esp_now_recv_cb st src msg len crc now).peers.map EspNowPeerInfo.mac_addr).Nodup ∧
    ((receive_task_step st qm now crcFn).peers.map EspNowPeerInfo.mac_addr).Nodup :=
  ⟨nodup_filter_mac_length_le st.peers mac h,
   add_peer_internal_nodup st mac now h,
   remove_peer_nodup st mac h,
   by rw [update_peer_stats_map_mac]; exact h,
   by rw [esp_now_recv_cb_map_mac]; exact h,
   receive_task_step_nodup st qm now crcFn h⟩

/-- Witness for C10 on a two-peer table with distinct addresses. -/
theorem c10_witness :
    (sweepState.peers.map EspNowPeerInfo.mac_addr).Nodup ∧
    ((sweepState.peers.filter (fun p => decide (p.mac_addr = mac_a))).length ≤ 1 ∧
     ((add_peer_internal sweepState mac_a 5).2.peers.map EspNowPeerInfo.mac_addr).Nodup ∧
     ((remove_peer sweepState mac_a).2.peers.map EspNowPeerInfo.mac_addr).Nodup ∧
     ((update_peer_stats sweepState mac_a true false 5).peers.map EspNowPeerInfo.mac_addr).Nodup ∧
     ((esp_now_recv_cb sweepState mac_b pingMessage espNowMessageSize 0 5).peers.map EspNowPeerInfo.mac_addr).Nodup ∧
     ((receive_task_step sweepState pingQueued 5 zeroCrc).peers.map EspNowPeerInfo.mac_addr).Nodup) :=
  ⟨by decide,
    c10_mac_uniqueness sweepState mac_a mac_b 5 espNowMessageSize 0 pingMessage pingQueued
      true false zeroCrc (by decide)⟩

/-- A full-length frame whose recomputed checksum matches is accepted:
the statistics are bumped, the sender's record is refreshed, and the frame
joins the receive queue. -/
theorem recv_cb_valid (st : ManagerState) (src : List Nat) (msg : EspNowMessage)
    (now : Nat) (hroom : st.receive_queue.length < espNowQueueLength) :
    esp_now_recv_cb st src msg espNowMessageSize msg.crc32 now =
      { update_peer_stats { st with statistics := { st.statistics with
            total_packets_received := st.statistics.total_packets_received + 1,
            total_bytes_received := st.statistics.total_bytes_received + espNowMessageSize } }
          src true false now with
        receive_queue := st.receive_queue ++ [⟨src, msg⟩] } := by
  rw [esp_now_recv_cb]
  rw [if_neg (lt_irrefl espNowMessageSize)]
  rw [if_neg (by simp)]
  dsimp only [update_peer_stats]
  rw [if_neg (Nat.not_le.mpr hroom)]

/-- The received-packet branch of `update_peer_stats`, written out. -/
theorem update_peer_stats_received (st : ManagerState) (mac : List Nat) (now : Nat) :
    update_peer_stats st mac true false now =
      { st with peers := update_first_peer st.peers mac (fun p =>
          { p with packets_received := p.packets_received + 1, last_seen_us := now }) } := rfl

/-- Processing a valid discovery frame from an unknown sender creates
exactly one fresh record for it (with zeroed counters) and drains the
receive queue again. -/
theorem c4_step_new (m : List Nat) (crcFn : EspNowMessage → Nat) (st : ManagerState)
    (f : EspNowMessage × Nat) (hq : st.receive_queue = []) (hp : st.peers = [])
    (ht : f.1.msg_type = MSG_DISCOVERY_REQUEST ∨ f.1.msg_type = MSG_DISCOVERY_RESPONSE) :
    (c4_step m crcFn st f).peers = [peerAt m f.2] ∧
    (c4_step m crcFn st f).receive_queue = [] := by
  have hroom : st.receive_queue.length < espNowQueueLength := by
    rw [hq]; simp [espNowQueueLength]
  simp only [c4_step, process_frame]
  rw [recv_cb_valid st m f.1 f.2 hroom]
  dsimp only [update_peer_stats]
  rw [hp, hq]
  dsimp only [update_first_peer, List.nil_append]
  rcases ht with h | h
  · simp only [receive_task_step]
    rw [if_pos h]
    simp only [add_peer_internal, find_peer, List.find?]
    dsimp only [List.nil_append]
    refine ⟨?_, ?_⟩
    · rw [(send_message_preserves _ _ _ _ _ _).1]
      rfl
    · rw [(send_message_preserves _ _ _ _ _ _).2]
  · simp only [receive_task_step]
    rw [if_neg (by rw [h]; simp [MSG_DISCOVERY_RESPONSE, MSG_DISCOVERY_REQUEST]), if_pos h]
    simp only [add_peer_internal, find_peer, List.find?]
    dsimp only [List.nil_append]
    exact ⟨rfl, trivial⟩

/-- Processing a valid discovery frame from the sender of the table's one
record bumps its received counter, refreshes its timestamp, and drains the
receive queue again. -/
theorem c4_step_existing (m : List Nat) (crcFn : EspNowMessage → Nat) (st : ManagerState)
    (r : EspNowPeerInfo) (f : EspNowMessage × Nat)
    (hq : st.receive_queue = []) (hp : st.peers = [r]) (hm : r.mac_addr = m)
    (ht : f.1.msg_type = MSG_DISCOVERY_REQUEST ∨ f.1.msg_type = MSG_DISCOVERY_RESPONSE) :
    (c4_step m crcFn st f).peers =
      [{ r with packets_received := r.packets_received + 1, last_seen_us := f.2, is_active := true }] ∧
    (c4_step m crcFn st f).receive_queue = [] := by
  have hroom : st.receive_queue.length < espNowQueueLength := by
    rw [hq]; simp [espNowQueueLength]
  simp only [c4_step, process_frame]
  rw [recv_cb_valid st m f.1 f.2 hroom]
  dsimp only [update_peer_stats]
  rw [hp, hq]
  dsimp only [update_first_peer, List.nil_append]
  rw [if_pos hm]
  simp only [ite_true]
  rcases ht with h | h
  · simp only [receive_task_step]
    rw [if_pos h]
    simp only [add_peer_internal, find_peer]
    rw [List.find?_cons_of_pos _ (by simp [hm])]
    dsimp only [update_first_peer]
    rw [if_pos hm]
    refine ⟨?_, ?_⟩
    · rw [(send_message_preserves _ _ _ _ _ _).1]
    · rw [(send_message_preserves _ _ _ _ _ _).2]
  · simp only [receive_task_step]
    rw [if_neg (by rw [h]; simp [MSG_DISCOVERY_RESPONSE, MSG_DISCOVERY_REQUEST]), if_pos h]
    simp only [add_peer_internal, find_peer]
    rw [List.find?_cons_of_pos _ (by simp [hm])]
    dsimp only [update_first_peer]
    rw [if_pos hm]
    exact ⟨rfl, rfl⟩

/-- Folding further valid discovery frames from the table's one sender
keeps exactly one record, adds one received packet per frame, and tracks
the latest frame's timestamp. -/
theorem c4_go (m : List Nat) (crcFn : EspNowMessage → Nat) :
    ∀ (fs : List (EspNowMessage × Nat)) (st : ManagerState) (r : EspNowPeerInfo),
      st.receive_queue = [] → st.peers = [r] → r.mac_addr = m →
      (∀ f ∈ fs, f.1.msg_type = MSG_DISCOVERY_REQUEST ∨
        f.1.msg_type = MSG_DISCOVERY_RESPONSE) →
      ∃ r', (fs.foldl (c4_step m crcFn) st).peers = [r'] ∧ r'.mac_addr = m ∧
        r'.packets_received = r.packets_received + fs.length ∧
        r'.last_seen_us = (fs.map Prod.snd).getLastD r.last_seen_us ∧
        (fs.foldl (c4_step m crcFn) st).receive_queue = [] := by
  intro fs
  induction fs with
  | nil =>
    intro st r hq hp hm _
    exact ⟨r, hp, hm, by simp, by simp, hq⟩
  | cons f fs ih =>
    intro st r hq hp hm htypes
    have hstep := c4_step_existing m crcFn st r f hq hp hm (htypes f (by simp))
    have hr2mac : ({ r with packets_received := r.packets_received + 1, last_seen_us := f.2, is_active := true } : EspNowPeerInfo).mac_addr = m := hm
    obtain ⟨r', h1, h2, h3, h4, h5⟩ := ih (c4_step m crcFn st f)
      { r with packets_received := r.packets_received + 1, last_seen_us := f.2, is_active := true }
      hstep.2 hstep.1 hr2mac (fun g hg => htypes g (by simp [hg]))
    refine ⟨r', ?_, h2, ?_, ?_, ?_⟩
    · simpa [List.foldl_cons] using h1
    · rw [h3]
      simp only [List.length_cons]
      omega
    · rw [h4, List.map_cons, List.getLastD_cons]
    · simpa [List.foldl_cons] using h5

/-- C4 (amended): starting from an empty peer table, sequentially
processing one or more valid discovery frames (request or response)
bearing the same link address yields exactly one peer record for that
address, whose `last_seen_us` is the most recent frame's processing
timestamp and whose received-packet counter is N − 1: the record is only
created when the inbound worker handles the first frame, after the
receive path's counter update has already missed it. -/
theorem c4_discovery_insertion (m : List Nat) (crcFn : EspNowMessage → Nat)
    (st0 : ManagerState) (f : EspNowMessage × Nat) (fs : List (EspNowMessage × Nat))
    (h_peers : st0.peers = []) (h_q : st0.receive_queue = [])
    (h_types : ∀ g ∈ f :: fs, g.1.msg_type = MSG_DISCOVERY_REQUEST ∨
      g.1.msg_type = MSG_DISCOVERY_RESPONSE) :
    (((f :: fs).foldl (c4_step m crcFn) st0).peers.map EspNowPeerInfo.mac_addr) = [m] ∧
    (((f :: fs).foldl (c4_step m crcFn) st0).peers.map EspNowPeerInfo.packets_received) =
      [(f :: fs).length - 1] ∧
    (((f :: fs).foldl (c4_step m crcFn) st0).peers.map EspNowPeerInfo.last_seen_us) =
      [((f :: fs).map Prod.snd).getLastD 0] := by
  have hstep := c4_step_new m crcFn st0 f h_q h_peers (h_types f (by simp))
  have hmac : (peerAt m f.2).mac_addr = m := rfl
  obtain ⟨r', h1, h2, h3, h4, h5⟩ := c4_go m crcFn fs (c4_step m crcFn st0 f)
    (peerAt m f.2) hstep.2 hstep.1 hmac (fun g hg => h_types g (by simp [hg]))
  simp only [List.foldl_cons]
  rw [h1]
  refine ⟨by simp [h2], ?_, ?_⟩
  · rw [List.map_singleton, h3]
    dsimp only [peerAt]
    simp only [List.length_cons, List.cons.injEq, and_true]
    omega
  · rw [List.map_singleton, h4, List.map_cons, List.getLastD_cons]
    rfl

/-- Witness for C4: two discovery requests from `mac_b` against an empty
table leave one record with one counted packet and the later timestamp. -/
theorem c4_witness :
    (baseState.peers = [] ∧ baseState.receive_queue = [] ∧
      (∀ g ∈ discoveryFrames, g.1.msg_type = MSG_DISCOVERY_REQUEST ∨
        g.1.msg_type = MSG_DISCOVERY_RESPONSE)) ∧
    ((discoveryFrames.foldl (c4_step mac_b zeroCrc) baseState).peers.map EspNowPeerInfo.mac_addr = [mac_b] ∧
     (discoveryFrames.foldl (c4_step mac_b zeroCrc) baseState).peers.map EspNowPeerInfo.packets_received = [discoveryFrames.length - 1] ∧
     (discoveryFrames.foldl (c4_step mac_b zeroCrc) baseState).peers.map EspNowPeerInfo.last_seen_us = [(discoveryFrames.map Prod.snd).getLastD 0]) :=
  ⟨⟨rfl, rfl, by decide⟩,
    c4_discovery_insertion mac_b zeroCrc baseState (discoveryRequestMessage, 10)
      [(discoveryRequestMessage, 20)] rfl rfl (by decide)⟩

/-- C4 counterexample: after two valid frames from the same address the
received-packet counter reads 1, not the 2 the claim requires — the first
frame is processed before its sender's record exists. -/
theorem c4_counterexample :
    (discoveryFrames.foldl (c4_step mac_b zeroCrc) baseState).peers.map
      EspNowPeerInfo.packets_received ≠ [2] ∧
    (discoveryFrames.foldl (c4_step mac_b zeroCrc) baseState).peers.map
      EspNowPeerInfo.packets_received = [1] := by
  refine ⟨by decide, by decide⟩
